import Mathlib

/-!
Verification development for the TMDB movie crawler (`crawl_data.py`).

The script fetches a genre map, paginates four listing endpoints, deduplicates
the fetched movie records by their `id` field, enriches each surviving record
with credits, assembles one output row per record and writes them to a CSV
file.  We give a shallow embedding of the script's functions and prove the
specified properties about them.

Modelling conventions:
* A parsed JSON payload is modelled by a structure whose fields are `Option`s
  when the corresponding key may be absent from the dictionary.
* Python code that can raise (direct indexing `d["k"]`, `str.join` applied to
  a non-string element) is modelled in the `Except Unit` monad; `Except.error`
  means an uncaught exception.
* Network effects are modelled by oracles: `safeGet` receives the outcome of
  each transport attempt, and `main` receives an `Env` giving the (post-retry)
  payload for each request, plus we log the requests issued.
* Numeric JSON values that the script only passes through unchanged
  (`vote_average`) are modelled as raw text, since no arithmetic touches them.
-/

namespace Crawl

/-- The `IMAGE_BASE` constant of the script. -/
def IMAGE_BASE : String := "https://image.tmdb.org/t/p/w500"

/-- The `PAGES_PER_ENDPOINT` constant of the script. -/
def PAGES_PER_ENDPOINT : Nat := 30

/-- The `ENDPOINTS` constant of the script. -/
def ENDPOINTS : List String :=
  ["/movie/popular", "/movie/top_rated", "/movie/upcoming", "/movie/now_playing"]

/-! ### safe_get -/

/-- Outcome of one transport attempt inside `safe_get`'s `try` block:
either some exception was raised (transport error or JSON parse error),
or a response came back with a status code and a parsed body. -/
inductive Attempt (α : Type) where
  | exn : Attempt α
  | resp (status : Nat) (body : α) : Attempt α
deriving DecidableEq

/-- One iteration of `safe_get`'s loop: the attempt yields a payload exactly
when no exception was raised and the status code is 200. -/
def attemptOk {α : Type} : Attempt α → Option α
  | .resp 200 b => some b
  | _ => none

/-- The loop of `safe_get` over a list of attempt outcomes: return the first
successful payload, `none` if every attempt fails. -/
def safeGetL {α : Type} : List (Attempt α) → Option α
  | [] => none
  | a :: rest =>
    match attemptOk a with
    | some b => some b
    | none => safeGetL rest

/-- Embeds `safe_get(session, url, params)`: `for _ in range(3)` tries the request,
returning the parsed payload on the first attempt with status 200 and `None`
after three failures.  The oracle `att` gives the outcome of the k-th attempt. -/
def safeGet {α : Type} (att : Nat → Attempt α) : Option α :=
  safeGetL [att 0, att 1, att 2]

/-! ### Data model -/

/-- A movie record from a listing endpoint's `results` array.  Every field the
script reads is optional because the script reads them with `m.get(...)` —
except `id`, which the dedup loop reads as `m["id"]`; we keep `id` optional
too and model that direct access as raising when the key is absent. -/
structure Movie where
  id : Option Int
  title : Option String
  overview : Option String
  release_date : Option String
  vote_average : Option String
  genre_ids : Option (List Int)
  poster_path : Option String
deriving DecidableEq

/-- Payload of a listing endpoint: the `results` key may be absent. -/
structure ListingPayload where
  results : Option (List Movie)
deriving DecidableEq

/-- One entry of the genre list payload.  The script reads `g["id"]` and
`g["name"]` directly; we model entries as pairs, assuming both keys present
(no claim concerns a malformed genre entry). -/
abbrev GenreEntry := Int × String

/-- Payload of the genre list endpoint: the `genres` key may be absent. -/
structure GenresPayload where
  genres : Option (List GenreEntry)
deriving DecidableEq

/-- One entry of a credits payload's `cast` or `crew` array; `c["name"]`
is a direct access (raises when absent), `c.get("job")` is defaulted. -/
structure CreditEntry where
  name : Option String
  job : Option String
deriving DecidableEq

/-- Payload of the credits endpoint: `data.get("cast", [])`,
`data.get("crew", [])`. -/
structure CreditsPayload where
  cast : Option (List CreditEntry)
  crew : Option (List CreditEntry)
deriving DecidableEq

/-! ### Genre map (Python dict semantics) -/

/-- Python dict assignment `d[k] = v`: overwrite in place if the key exists,
append otherwise. -/
def dictInsert (d : List (Int × String)) (k : Int) (v : String) : List (Int × String) :=
  if d.any (fun kv => kv.1 == k) then
    d.map (fun kv => if kv.1 == k then (k, v) else kv)
  else
    d ++ [(k, v)]

/-- Python `d.get(k)` on the genre map. -/
def dictGet (d : List (Int × String)) (k : Int) : Option String :=
  (d.find? (fun kv => kv.1 == k)).map (fun kv => kv.2)

/-- Embeds `get_genres(session)`: build the genre map from the genre-list payload;
empty map when the fetch returned no payload or the `genres` key is absent. -/
def getGenres (data : Option GenresPayload) : List (Int × String) :=
  match data with
  | none => []
  | some d =>
    match d.genres with
    | none => []
    | some gs => gs.foldl (fun acc g => dictInsert acc g.1 g.2) []

/-! ### Listing paginator -/

/-- The loop body of `get_movies_from_endpoint`, instrumented: returns the list of
page numbers actually fetched together with the accumulated records.  The loop
requests page `page`, breaks when the payload is absent or has no `results`
key, otherwise extends the accumulator and moves to the next page. -/
def getMoviesLoopT (fetch : Nat → Option ListingPayload) : Nat → Nat → List Nat × List Movie
  | _, 0 => ([], [])
  | page, k + 1 =>
    match fetch page with
    | none => ([page], [])
    | some d =>
      match d.results with
      | none => ([page], [])
      | some rs =>
        let rest := getMoviesLoopT fetch (page + 1) k
        (page :: rest.1, rs ++ rest.2)

/-- Embeds `get_movies_from_endpoint(session, endpoint, pages)`, instrumented with
the pages fetched: `for page in range(1, pages + 1)`. -/
def getMoviesT (fetch : Nat → Option ListingPayload) (pages : Nat) : List Nat × List Movie :=
  getMoviesLoopT fetch 1 pages

/-- Embeds `get_movies_from_endpoint`: just the accumulated records. -/
def getMoviesFromEndpoint (fetch : Nat → Option ListingPayload) (pages : Nat) : List Movie :=
  (getMoviesT fetch pages).2

/-- Whether a page's fetch lets the loop continue: payload present and
carrying a `results` list. -/
def pageGood (fetch : Nat → Option ListingPayload) (p : Nat) : Bool :=
  ((fetch p).bind ListingPayload.results).isSome

/-- The records a page contributes (empty when the page is bad). -/
def pageResults (fetch : Nat → Option ListingPayload) (p : Nat) : List Movie :=
  ((fetch p).bind ListingPayload.results).getD []

/-! ### Deduplication -/

/-- The dedup loop of `main` (lines 110-113), with the `seen` set threaded
explicitly.  `m["id"]` is a direct access: a record without an `id` key makes
the loop raise (`Except.error`). -/
def dedupAux : List Int → List Movie → Except Unit (List Movie)
  | _, [] => .ok []
  | seen, m :: ms =>
    match m.id with
    | none => .error ()
    | some i =>
      if i ∈ seen then
        dedupAux seen ms
      else
        (dedupAux (i :: seen) ms).map (fun rest => m :: rest)

/-- The dedup loop started with an empty `seen` set. -/
def dedupMovies (ms : List Movie) : Except Unit (List Movie) :=
  dedupAux [] ms

/-- Boolean test "this movie's `id` field equals `some i`". -/
def idEq (i : Int) (m : Movie) : Bool :=
  m.id == some i

/-! ### Credits -/

/-- A Python list comprehension `[f(c) for c in l]` where `f` is a direct
key access: evaluates left to right, raising at the first element whose key
is absent. -/
def exnMap (f : CreditEntry → Option String) : List CreditEntry → Except Unit (List String)
  | [] => .ok []
  | c :: rest =>
    match f c with
    | none => .error ()
    | some s => (exnMap f rest).map (fun tail => s :: tail)

/-- Embeds `get_movie_credits(session, movie_id)` applied to the fetched payload:
no payload yields `("", "")`; otherwise the names of the first five cast
entries joined with `", "`, and the name of the first crew entry whose `job`
is `"Director"` (empty string when none matches). -/
def getMovieCredits (data : Option CreditsPayload) : Except Unit (String × String) := do
  match data with
  | none => .ok ("", "")
  | some d =>
    let cast_names ← exnMap CreditEntry.name ((d.cast.getD []).take 5)
    let directors ← exnMap CreditEntry.name
      ((d.crew.getD []).filter (fun c => c.job == some "Director"))
    let top_cast := String.intercalate ", " cast_names
    let director := directors.head?.getD ""
    .ok (top_cast, director)

/-! ### Row assembly -/

/-- A Python value that is either a string (a resolved genre name) or an
integer (the raw genre id `genre_map.get(g, g)` falls back to). -/
inductive StrOrInt where
  | str (s : String) : StrOrInt
  | int (n : Int) : StrOrInt
deriving DecidableEq

/-- Embeds `[genre_map.get(g, g) for g in m.get("genre_ids", [])]`. -/
def genreVals (gm : List (Int × String)) (ids : List Int) : List StrOrInt :=
  ids.map (fun g =>
    match dictGet gm g with
    | some n => .str n
    | none => .int g)

/-- Check every joined element is a string, as Python's `str.join` does;
`TypeError` (modelled as `Except.error`) at the first non-string element. -/
def asStrings : List StrOrInt → Except Unit (List String)
  | [] => .ok []
  | .str s :: rest => (asStrings rest).map (fun tail => s :: tail)
  | .int _ :: _ => .error ()

/-- Python `sep.join(xs)` on a mixed list: raises unless every element is a
string. -/
def pyJoin (sep : String) (xs : List StrOrInt) : Except Unit String :=
  (asStrings xs).map (String.intercalate sep)

/-- One output row (lines 129-139 of the script). -/
structure Row where
  id : Option Int
  title : Option String
  overview : Option String
  release_date : Option String
  vote_average : Option String
  genres : String
  top_cast : String
  director : String
  poster_url : String
deriving DecidableEq

/-- The loop body of lines 119-139 for one movie record: read the defaulted
fields, resolve genre values, build the poster URL (`IMAGE_BASE +
m["poster_path"]` guarded by the truthiness of `m.get("poster_path")`), fetch
credits, then build the row dict — where `", ".join(genres)` raises if some
genre id was missing from the map. -/
def assembleRow (gm : List (Int × String)) (credits : Except Unit (String × String))
    (m : Movie) : Except Unit Row := do
  let genresL := genreVals gm (m.genre_ids.getD [])
  let poster :=
    match m.poster_path with
    | some p => if p = "" then "" else IMAGE_BASE ++ p
    | none => ""
  let (top_cast, director) ← credits
  let genres ← pyJoin ", " genresL
  .ok { id := m.id, title := m.title, overview := m.overview,
        release_date := m.release_date, vote_average := m.vote_average,
        genres := genres, top_cast := top_cast, director := director,
        poster_url := poster }

/-! ### main -/

/-- A network request the script can issue (each corresponds to one
`safe_get` call). -/
inductive Request where
  | genreList : Request
  | listing (endpoint : String) (page : Nat) : Request
  | credits (movie_id : Option Int) : Request
deriving DecidableEq

/-- The (post-retry) payloads the network yields to each request of a run. -/
structure Env where
  genreFetch : Option GenresPayload
  listingFetch : String → Nat → Option ListingPayload
  creditsFetch : Option Int → Option CreditsPayload

/-- Lines 117-142: per surviving movie, fetch its credits and assemble its
row; an exception aborts the run (nothing is written).  Returns the credit
requests issued together with the outcome. -/
def buildRowsT (env : Env) (gm : List (Int × String)) :
    List Movie → List Request × Except Unit (List Row)
  | [] => ([], .ok [])
  | m :: ms =>
    let mid := m.id
    match assembleRow gm (getMovieCredits (env.creditsFetch mid)) m with
    | .error e => ([.credits mid], .error e)
    | .ok r =>
      let rest := buildRowsT env gm ms
      (.credits mid :: rest.1, rest.2.map (fun rows => r :: rows))

/-- Embeds `not API_KEY or API_KEY == "YOUR_API_KEY_HERE"`: `os.getenv` returns
`None` when unset, and the empty string is also falsy. -/
def badKey (apiKey : Option String) : Prop :=
  apiKey = none ∨ apiKey = some "" ∨ apiKey = some "YOUR_API_KEY_HERE"

instance (apiKey : Option String) : Decidable (badKey apiKey) := by
  unfold badKey; infer_instance

/-- Embeds `main()`: returns the list of network requests issued and, when the run
reaches `df.to_csv`, the rows written to the output file (`none` means the
file is neither created nor modified: early return on a bad key, or an
uncaught exception). -/
def mainModel (apiKey : Option String) (env : Env) :
    List Request × Option (List Row) :=
  if badKey apiKey then ([], none)
  else
    let gm := getGenres env.genreFetch
    let listReqs := (ENDPOINTS.map (fun e =>
      (getMoviesT (env.listingFetch e) PAGES_PER_ENDPOINT).1.map (Request.listing e))).flatten
    let movies := (ENDPOINTS.map (fun e =>
      getMoviesFromEndpoint (env.listingFetch e) PAGES_PER_ENDPOINT)).flatten
    let reqs0 := Request.genreList :: listReqs
    match dedupMovies movies with
    | .error _ => (reqs0, none)
    | .ok dm =>
      let built := buildRowsT env gm dm
      match built.2 with
      | .error _ => (reqs0 ++ built.1, none)
      | .ok rows => (reqs0 ++ built.1, some rows)

/-! ### Pagination lemmas -/

/-- Characterisation of the paginator loop when page `b` is the first bad page
within the fuel window: the pages fetched are exactly `s, s+1, …, b` and the
accumulated records are those of the good pages `s, …, b-1`. -/
theorem getMoviesLoopT_spec (fetch : Nat → Option ListingPayload) (k : Nat) :
    ∀ (s b : Nat), s ≤ b → b < s + k →
    (∀ p, s ≤ p → p < b → pageGood fetch p = true) →
    pageGood fetch b = false →
    getMoviesLoopT fetch s k =
      (List.range' s (b - s + 1), (List.range' s (b - s)).flatMap (pageResults fetch)) := by
  induction k with
  | zero => intro s b hsb hbk _ _; omega
  | succ k ih =>
    intro s b hsb hbk hgood hbad
    rcases Nat.eq_or_lt_of_le hsb with heq | hlt
    · subst heq
      cases hf : fetch s with
      | none => simp [getMoviesLoopT, hf, Nat.sub_self, List.range'_one]
      | some d =>
        cases hr : d.results with
        | none => simp [getMoviesLoopT, hf, hr, Nat.sub_self, List.range'_one]
        | some rs => exact absurd hbad (by simp [pageGood, hf, hr])
    · have hgs : pageGood fetch s = true := hgood s (le_refl s) hlt
      cases hf : fetch s with
      | none => simp [pageGood, hf] at hgs
      | some d =>
        cases hr : d.results with
        | none => simp [pageGood, hf, hr] at hgs
        | some rs =>
          have ihs := ih (s + 1) b hlt (by omega)
            (fun p hp1 hp2 => hgood p (by omega) hp2) hbad
          have e1 : b - s + 1 = (b - (s + 1) + 1) + 1 := by omega
          have e2 : b - s = (b - (s + 1)) + 1 := by omega
          have hps : pageResults fetch s = rs := by simp [pageResults, hf, hr]
          simp only [getMoviesLoopT, hf, hr, ihs, e1, e2,
            List.range'_succ s _ 1, List.flatMap_cons, hps]

/-- C4 helper, packaged at the paginator's entry point. -/
theorem getMoviesT_spec (fetch : Nat → Option ListingPayload)
    (pages b : Nat) (h1 : 1 ≤ b) (h2 : b ≤ pages)
    (hgood : ∀ p, 1 ≤ p → p < b → pageGood fetch p = true)
    (hbad : pageGood fetch b = false) :
    getMoviesT fetch pages =
      (List.range' 1 b, (List.range' 1 (b - 1)).flatMap (pageResults fetch)) := by
  have h := getMoviesLoopT_spec fetch pages 1 b h1 (by omega) hgood hbad
  have e : b - 1 + 1 = b := by omega
  unfold getMoviesT
  rw [h, e]

/-- If every page in `[s, q)` is good and `q` lies inside the fuel window,
the loop fetches page `q`. -/
theorem getMoviesLoopT_reaches (fetch : Nat → Option ListingPayload) (k : Nat) :
    ∀ (s q : Nat), s ≤ q → q < s + k →
    (∀ p, s ≤ p → p < q → pageGood fetch p = true) →
    q ∈ (getMoviesLoopT fetch s k).1 := by
  induction k with
  | zero => intro s q h1 h2 _; omega
  | succ k ih =>
    intro s q h1 h2 hgood
    rcases Nat.eq_or_lt_of_le h1 with heq | hlt
    · subst heq
      cases hf : fetch s with
      | none => simp [getMoviesLoopT, hf]
      | some d =>
        cases hr : d.results with
        | none => simp [getMoviesLoopT, hf, hr]
        | some rs => simp [getMoviesLoopT, hf, hr]
    · have hgs : pageGood fetch s = true := hgood s (le_refl s) hlt
      cases hf : fetch s with
      | none => simp [pageGood, hf] at hgs
      | some d =>
        cases hr : d.results with
        | none => simp [pageGood, hf, hr] at hgs
        | some rs =>
          have hq := ih (s + 1) q hlt (by omega)
            (fun p hp1 hp2 => hgood p (by omega) hp2)
          simp only [getMoviesLoopT, hf, hr, List.mem_cons]
          exact Or.inr hq

/-- C4: for every endpoint fetch oracle and page bound, if page `b` (within
the bound) is the first page whose fetch returns an absent payload or a
payload with no `results` key, then the paginator requests exactly pages
`1, …, b` in increasing order — no later-numbered page is fetched — and
returns the records accumulated from the earlier successful pages. -/
theorem pagination_stops_at_first_bad (fetch : Nat → Option ListingPayload)
    (pages b : Nat) (h1 : 1 ≤ b) (h2 : b ≤ pages)
    (hgood : ∀ p, 1 ≤ p → p < b → pageGood fetch p = true)
    (hbad : pageGood fetch b = false) :
    (getMoviesT fetch pages).1 = List.range' 1 b ∧
    getMoviesFromEndpoint fetch pages =
      (List.range' 1 (b - 1)).flatMap (pageResults fetch) := by
  have h := getMoviesT_spec fetch pages b h1 h2 hgood hbad
  constructor
  · rw [h]
  · unfold getMoviesFromEndpoint
    rw [h]

/-- Example fetch oracle: page 1 yields one record, every later page yields
no payload. -/
def mEx1 : Movie := ⟨some 10, some "W", none, none, none, none, none⟩

/-- Fetch oracle for the C4 witness. -/
def fetchEx : Nat → Option ListingPayload := fun p =>
  if p = 1 then some ⟨some [mEx1]⟩ else none

/-- Witness for C4 at a concrete oracle: with page 2 the first bad page out of
3 allowed, exactly pages 1 and 2 are fetched and page 1's record is returned. -/
theorem pagination_stops_at_first_bad_witness :
    (getMoviesT fetchEx 3).1 = List.range' 1 2 ∧
    getMoviesFromEndpoint fetchEx 3 =
      (List.range' 1 1).flatMap (pageResults fetchEx) :=
  pagination_stops_at_first_bad fetchEx 3 2 (by omega) (by omega)
    (fun p hp1 hp2 => by interval_cases p; decide) (by decide)

/-- Record returned by page 2 of the C5 counterexample oracle. -/
def mCex : Movie := ⟨some 2, none, none, none, none, none, none⟩

/-- C5 counterexample oracle: page 1 yields an empty `results` list, page 2
yields one record, later pages yield nothing. -/
def cexFetch : Nat → Option ListingPayload := fun p =>
  if p = 1 then some ⟨some []⟩ else if p = 2 then some ⟨some [mCex]⟩ else none

/-- C5 counterexample: a run in which page 1's payload carries an empty
`results` list, yet the paginator still fetches the later-numbered page 2 and
returns its record — the empty list does not stop accumulation. -/
theorem empty_results_stops_cex :
    (cexFetch 1).bind ListingPayload.results = some [] ∧
    2 ∈ (getMoviesT cexFetch 2).1 ∧
    getMoviesFromEndpoint cexFetch 2 = [mCex] := by decide

/-- C5 amended: a page whose payload contains an empty `results` list does not
stop pagination; provided the page bound allows it, the next page is still
fetched (the loop breaks only on an absent payload or a missing `results`
key). -/
theorem empty_results_does_not_stop (fetch : Nat → Option ListingPayload)
    (pages b : Nat) (h1 : 1 ≤ b) (hlt : b < pages)
    (hgood : ∀ p, 1 ≤ p → p < b → pageGood fetch p = true)
    (hempty : (fetch b).bind ListingPayload.results = some []) :
    b + 1 ∈ (getMoviesT fetch pages).1 :=
  getMoviesLoopT_reaches fetch pages 1 (b + 1) (by omega) (by omega)
    (fun p hp1 hp2 => by
      rcases Nat.lt_or_ge p b with h | h
      · exact hgood p hp1 h
      · have hpb : p = b := by omega
        subst hpb
        simp [pageGood, hempty])

/-- Witness for the amended C5 at the counterexample oracle: page 1 has an
empty `results` list and page 2 is fetched. -/
theorem empty_results_does_not_stop_witness : 2 ∈ (getMoviesT cexFetch 3).1 :=
  empty_results_does_not_stop cexFetch 3 1 (by omega) (by omega)
    (fun p hp1 hp2 => absurd hp2 (by omega)) (by decide)

/-! ### Deduplication lemmas -/

/-- The dedup loop preserves the first occurrence of every id not already
seen: searching the output for id `i` finds exactly what searching the input
finds. -/
theorem dedupAux_find? (i : Int) :
    ∀ (ms : List Movie) (seen : List Int) (out : List Movie),
    dedupAux seen ms = .ok out → i ∉ seen →
    out.find? (idEq i) = ms.find? (idEq i) := by
  intro ms
  induction ms with
  | nil =>
    intro seen out h _
    simp only [dedupAux] at h
    cases h
    rfl
  | cons m ms ih =>
    intro seen out h hi
    simp only [dedupAux] at h
    cases hid : m.id with
    | none => rw [hid] at h; cases h
    | some j =>
      rw [hid] at h
      dsimp only at h
      by_cases hj : j ∈ seen
      · rw [if_pos hj] at h
        have hne : idEq i m = false := by
          simp only [idEq, hid, beq_eq_false_iff_ne, ne_eq, Option.some.injEq]
          intro hji
          exact hi (hji ▸ hj)
        rw [List.find?_cons_of_neg _ (by simp [hne]), ih seen out h hi]
      · rw [if_neg hj] at h
        cases hrec : dedupAux (j :: seen) ms with
        | error e => rw [hrec] at h; cases h
        | ok rest =>
          rw [hrec] at h
          cases h
          by_cases hji : j = i
          · subst hji
            have hpos : idEq j m = true := by simp [idEq, hid]
            rw [List.find?_cons_of_pos _ hpos, List.find?_cons_of_pos _ hpos]
          · have hne : idEq i m = false := by simp [idEq, hid, hji]
            rw [List.find?_cons_of_neg _ (by simp [hne]),
              List.find?_cons_of_neg _ (by simp [hne])]
            exact ih (j :: seen) rest hrec (by
              simp only [List.mem_cons, not_or]
              exact ⟨fun hij => hji hij.symm, hi⟩)

/-- The dedup loop's output is a sublist of its input (it keeps input order,
dropping only repeated ids). -/
theorem dedupAux_sublist :
    ∀ (ms : List Movie) (seen : List Int) (out : List Movie),
    dedupAux seen ms = .ok out → out.Sublist ms := by
  intro ms
  induction ms with
  | nil =>
    intro seen out h
    simp only [dedupAux] at h
    cases h
    exact List.Sublist.refl []
  | cons m ms ih =>
    intro seen out h
    simp only [dedupAux] at h
    cases hid : m.id with
    | none => rw [hid] at h; cases h
    | some j =>
      rw [hid] at h
      dsimp only at h
      by_cases hj : j ∈ seen
      · rw [if_pos hj] at h
        exact List.Sublist.cons m (ih seen out h)
      · rw [if_neg hj] at h
        cases hrec : dedupAux (j :: seen) ms with
        | error e => rw [hrec] at h; cases h
        | ok rest =>
          rw [hrec] at h
          cases h
          exact List.Sublist.cons₂ m (ih (j :: seen) rest hrec)

/-- The dedup loop outputs records whose ids are present, outside the `seen`
set, and pairwise distinct. -/
theorem dedupAux_nodup :
    ∀ (ms : List Movie) (seen : List Int) (out : List Movie),
    dedupAux seen ms = .ok out →
    (∀ m ∈ out, ∀ i, m.id = some i → i ∉ seen) ∧ (out.map Movie.id).Nodup := by
  intro ms
  induction ms with
  | nil =>
    intro seen out h
    simp only [dedupAux] at h
    cases h
    exact ⟨by simp, by simp⟩
  | cons m ms ih =>
    intro seen out h
    simp only [dedupAux] at h
    cases hid : m.id with
    | none => rw [hid] at h; cases h
    | some j =>
      rw [hid] at h
      dsimp only at h
      by_cases hj : j ∈ seen
      · rw [if_pos hj] at h
        exact ih seen out h
      · rw [if_neg hj] at h
        cases hrec : dedupAux (j :: seen) ms with
        | error e => rw [hrec] at h; cases h
        | ok rest =>
          rw [hrec] at h
          cases h
          obtain ⟨hmem, hnd⟩ := ih (j :: seen) rest hrec
          constructor
          · intro x hx i hxi
            rcases List.mem_cons.mp hx with hxm | hxr
            · subst hxm
              rw [hid] at hxi
              cases hxi
              exact hj
            · have := hmem x hxr i hxi
              intro hiseen
              exact this (List.mem_cons_of_mem j hiseen)
          · rw [List.map_cons, List.nodup_cons]
            refine ⟨?_, hnd⟩
            intro hmemmap
            rcases List.mem_map.mp hmemmap with ⟨x, hxr, hxid⟩
            have := hmem x hxr j (by rw [hxid, hid])
            exact this (List.mem_cons_self j seen)

/-- The dedup loop never raises when every record carries an `id` key. -/
theorem dedupAux_ok_of_ids :
    ∀ (ms : List Movie) (seen : List Int), (∀ m ∈ ms, (Movie.id m).isSome) →
    ∃ out, dedupAux seen ms = .ok out := by
  intro ms
  induction ms with
  | nil => intro seen _; exact ⟨[], rfl⟩
  | cons m ms ih =>
    intro seen hids
    have hm : (Movie.id m).isSome := hids m (List.mem_cons_self m ms)
    cases hid : m.id with
    | none => rw [hid] at hm; cases hm
    | some j =>
      by_cases hj : j ∈ seen
      · obtain ⟨out, hout⟩ := ih seen (fun x hx => hids x (List.mem_cons_of_mem m hx))
        exact ⟨out, by simp only [dedupAux, hid, if_pos hj]; exact hout⟩
      · obtain ⟨out, hout⟩ := ih (j :: seen) (fun x hx => hids x (List.mem_cons_of_mem m hx))
        exact ⟨m :: out, by simp only [dedupAux, hid, if_neg hj, hout, Except.map]⟩

/-- The dedup loop raises as soon as it reaches a record without an `id`
key. -/
theorem dedupAux_error_of_missing :
    ∀ (ms : List Movie) (seen : List Int), (∃ m ∈ ms, m.id = none) →
    dedupAux seen ms = .error () := by
  intro ms
  induction ms with
  | nil => intro seen h; obtain ⟨m, hm, _⟩ := h; cases hm
  | cons m ms ih =>
    intro seen h
    cases hid : m.id with
    | none => simp only [dedupAux, hid]
    | some j =>
      obtain ⟨x, hx, hxid⟩ := h
      rcases List.mem_cons.mp hx with hxm | hxr
      · subst hxm; rw [hid] at hxid; cases hxid
      · have herr := ih (if j ∈ seen then seen else j :: seen) ⟨x, hxr, hxid⟩
        by_cases hj : j ∈ seen
        · rw [if_pos hj] at herr
          simp only [dedupAux, hid, if_pos hj, herr]
        · rw [if_neg hj] at herr
          simp only [dedupAux, hid, if_neg hj, herr, Except.map]

/-- C6: when the records of an earlier endpoint `A` and a later endpoint `B`
are aggregated, a movie id occurring in both contributes the record found
first in `A` (searching the deduplicated output for that id yields exactly the
first matching record of `A`), and the output is a sublist of the combined
sequence, i.e. rows keep first-seen order. -/
theorem dedup_first_seen (A B out : List Movie) (i : Int) (mA mB : Movie)
    (hok : dedupMovies (A ++ B) = .ok out)
    (hA : A.find? (idEq i) = some mA)
    (hB : mB ∈ B) (hBid : idEq i mB = true) :
    out.find? (idEq i) = some mA ∧ out.Sublist (A ++ B) := by
  constructor
  · rw [dedupAux_find? i (A ++ B) [] out hok (by simp), List.find?_append, hA]
    rfl
  · exact dedupAux_sublist (A ++ B) [] out hok

/-- First-endpoint record for the C6 witness: id 1 as endpoint `A` saw it. -/
def mA1 : Movie := ⟨some 1, some "from A", none, none, none, none, none⟩

/-- Later-endpoint record with the same id 1 for the C6 witness. -/
def mB1 : Movie := ⟨some 1, some "from B", none, none, none, none, none⟩

/-- A fresh record for the C6 witness. -/
def mB2 : Movie := ⟨some 3, none, none, none, none, none, none⟩

/-- Witness for C6: with id 1 present in both lists, the deduplicated output
keeps endpoint `A`'s record and first-seen order. -/
theorem dedup_first_seen_witness :
    ([mA1, mB2] : List Movie).find? (idEq 1) = some mA1 ∧
    ([mA1, mB2] : List Movie).Sublist ([mA1] ++ [mB1, mB2]) :=
  dedup_first_seen [mA1] [mB1, mB2] [mA1, mB2] 1 mA1 mB1
    (by rfl) (by decide) (by decide) (by decide)

/-- C10: the aggregation loop indexes each record's `id` field directly.
Under the precondition that every fetched record carries an `id` key the loop
never raises; conversely a record lacking the key makes the loop raise
(`m["id"]` fails) rather than being skipped or defaulted. -/
theorem dedup_id_access (ms : List Movie) :
    ((∀ m ∈ ms, (Movie.id m).isSome) → ∃ out, dedupMovies ms = .ok out) ∧
    ((∃ m ∈ ms, m.id = none) → dedupMovies ms = .error ()) :=
  ⟨fun h => dedupAux_ok_of_ids ms [] h, fun h => dedupAux_error_of_missing ms [] h⟩

/-- A record without an `id` key, for the C10 witness. -/
def mNoId : Movie := ⟨none, none, none, none, none, none, none⟩

/-- Witness for C10: a list whose record has an id deduplicates without
raising; a list containing a record without an id makes the loop raise. -/
theorem dedup_id_access_witness :
    (∃ out, dedupMovies [mEx1] = .ok out) ∧ dedupMovies [mNoId] = .error () :=
  ⟨(dedup_id_access [mEx1]).1 (by decide),
   (dedup_id_access [mNoId]).2 ⟨mNoId, by simp, rfl⟩⟩

/-! ### Credits lemmas -/

/-- The name-extracting comprehension succeeds and collects all names when
every entry carries a `name` key. -/
theorem exnMap_ok (f : CreditEntry → Option String) :
    ∀ (l : List CreditEntry), (∀ c ∈ l, (f c).isSome) →
    exnMap f l = .ok (l.filterMap f) := by
  intro l
  induction l with
  | nil => intro _; rfl
  | cons c rest ih =>
    intro h
    have hc : (f c).isSome := h c (List.mem_cons_self c rest)
    cases hfc : f c with
    | none => rw [hfc] at hc; cases hc
    | some s =>
      have hrest := ih (fun x hx => h x (List.mem_cons_of_mem c hx))
      simp only [exnMap, hfc, hrest, Except.map, List.filterMap_cons_some hfc]

/-- Taking the head of the extracted names is taking the head entry's name,
when every entry carries a `name` key. -/
theorem head?_filterMap_of_isSome (f : CreditEntry → Option String) :
    ∀ (l : List CreditEntry), (∀ c ∈ l, (f c).isSome) →
    (l.filterMap f).head? = l.head?.bind f := by
  intro l
  induction l with
  | nil => intro _; rfl
  | cons c rest _ =>
    intro h
    have hc : (f c).isSome := h c (List.mem_cons_self c rest)
    cases hfc : f c with
    | none => rw [hfc] at hc; cases hc
    | some s => simp [List.filterMap_cons_some hfc, hfc]

/-- C7: the credit enricher returns `("", "")` when the fetch yields no
payload; otherwise (provided the relevant entries carry `name` keys, so the
comprehension does not raise) it returns the names of the first 5 cast
entries in API order joined with `", "`, and as director the name of the
first crew entry whose `job` equals `"Director"`, or `""` when none
matches. -/
theorem credits_spec (d : CreditsPayload)
    (hcast : ∀ c ∈ (d.cast.getD []).take 5, (CreditEntry.name c).isSome)
    (hcrew : ∀ c ∈ (d.crew.getD []).filter (fun c => c.job == some "Director"),
      (CreditEntry.name c).isSome) :
    getMovieCredits none = .ok ("", "") ∧
    getMovieCredits (some d) = .ok
      (String.intercalate ", " (((d.cast.getD []).take 5).filterMap CreditEntry.name),
       ((((d.crew.getD []).find? (fun c => c.job == some "Director")).bind
          CreditEntry.name).getD "")) := by
  constructor
  · rfl
  · simp only [getMovieCredits, exnMap_ok CreditEntry.name _ hcast,
      exnMap_ok CreditEntry.name _ hcrew, bind, Except.bind]
    rw [head?_filterMap_of_isSome CreditEntry.name _ hcrew, List.filter_head?]

/-- A cast/crew entry with just a name, for the C7 witness. -/
def cEnt (n : String) : CreditEntry := ⟨some n, none⟩

/-- C7 witness payload: 7 cast entries, no crew entry with job "Director". -/
def c7 : CreditsPayload :=
  ⟨some [cEnt "a", cEnt "b", cEnt "c", cEnt "d", cEnt "e", cEnt "f", cEnt "g"],
   some [⟨some "h", some "Writer"⟩]⟩

/-- Witness for C7: the 7-cast payload yields exactly the first 5 names and
an empty director. -/
theorem credits_spec_witness :
    getMovieCredits (some c7) = .ok ("a, b, c, d, e", "") := by
  have h := (credits_spec c7 (by decide) (by decide)).2
  rw [h]
  rfl

/-! ### Row assembly lemmas -/

/-- Characterisation of a successful row assembly: credits and the genre join
both succeeded, and the row is the literal dict of lines 129-139. -/
theorem assembleRow_eq (gm : List (Int × String))
    (credits : Except Unit (String × String)) (m : Movie) (row : Row)
    (h : assembleRow gm credits m = .ok row) :
    ∃ tc dir g, credits = .ok (tc, dir) ∧
      pyJoin ", " (genreVals gm (m.genre_ids.getD [])) = .ok g ∧
      row = { id := m.id, title := m.title, overview := m.overview,
              release_date := m.release_date, vote_average := m.vote_average,
              genres := g, top_cast := tc, director := dir,
              poster_url :=
                match m.poster_path with
                | some p => if p = "" then "" else IMAGE_BASE ++ p
                | none => "" } := by
  unfold assembleRow at h
  cases hc : credits with
  | error e => rw [hc] at h; simp [bind, Except.bind] at h
  | ok td =>
    obtain ⟨tc, dir⟩ := td
    rw [hc] at h
    simp only [bind, Except.bind] at h
    cases hg : pyJoin ", " (genreVals gm (m.genre_ids.getD [])) with
    | error e => rw [hg] at h; simp at h
    | ok g =>
      rw [hg] at h
      dsimp only at h
      cases h
      exact ⟨tc, dir, g, rfl, rfl, rfl⟩

/-- The movie record for the C2 failing input: its genre-id list holds the
identifier 999, which the (empty) genre map does not contain. -/
def mMissingGenre : Movie := ⟨some 7, some "X", none, none, none, some [999], none⟩

/-- C2 (evaluation at the failing input): a genre identifier missing from the
genre map is kept as a raw integer by `genre_map.get(g, g)`, so
`", ".join(genres)` raises `TypeError` and row assembly fails — it does not
produce the identifier's textual numeral. -/
theorem missing_genre_join_raises :
    genreVals [] [999] = [StrOrInt.int 999] ∧
    assembleRow [] (.ok ("", "")) mMissingGenre = .error () :=
  ⟨rfl, rfl⟩

/-- C9: in every assembled row, the `poster_url` field is the fixed image
base concatenated with the record's poster path when one is present
(non-empty, i.e. truthy), and the empty string when the record has no poster
path. -/
theorem poster_url_spec (gm : List (Int × String))
    (credits : Except Unit (String × String)) (m : Movie) (row : Row)
    (h : assembleRow gm credits m = .ok row) :
    (∀ p, m.poster_path = some p → p ≠ "" → row.poster_url = IMAGE_BASE ++ p) ∧
    (m.poster_path = none → row.poster_url = "") := by
  obtain ⟨tc, dir, g, _, _, hrow⟩ := assembleRow_eq gm credits m row h
  subst hrow
  constructor
  · intro p hp hne
    simp [hp, hne]
  · intro hp
    simp [hp]

/-- Record with a poster path, for the C9 witness. -/
def mPoster : Movie := ⟨some 1, none, none, none, none, some [], some "/x.jpg"⟩

/-- The row the script assembles for `mPoster`. -/
def rowPoster : Row :=
  ⟨some 1, none, none, none, none, "", "", "", IMAGE_BASE ++ "/x.jpg"⟩

/-- Witness for C9 at a concrete record: the poster URL is the image base
concatenated with `/x.jpg`. -/
theorem poster_url_spec_witness : rowPoster.poster_url = IMAGE_BASE ++ "/x.jpg" :=
  (poster_url_spec [] (.ok ("", "")) mPoster rowPoster rfl).1 "/x.jpg" rfl (by decide)

/-! ### safe_get theorem -/

/-- C3: `safe_get` attempts the request at most 3 times — its result depends
only on the first three attempt outcomes; an attempt succeeds only if the
transport call raises no exception and the status is 200, in which case the
parsed payload is returned at the first such attempt; if all 3 attempts fail
it returns `None`, and being a total function it never propagates an
exception to its caller. -/
theorem safe_get_retries {α : Type} (att att2 : Nat → Attempt α) (b : α) (k : Nat)
    (hagree : ∀ j, j < 3 → att j = att2 j) :
    safeGet att = safeGet att2 ∧
    ((∀ j, j < 3 → attemptOk (att j) = none) → safeGet att = none) ∧
    (k < 3 → attemptOk (att k) = some b →
      (∀ j, j < k → attemptOk (att j) = none) → safeGet att = some b) := by
  refine ⟨?_, ?_, ?_⟩
  · simp only [safeGet, hagree 0 (by omega), hagree 1 (by omega), hagree 2 (by omega)]
  · intro hall
    simp [safeGet, safeGetL, hall 0 (by omega), hall 1 (by omega), hall 2 (by omega)]
  · intro hk hsucc hprev
    interval_cases k
    · simp [safeGet, safeGetL, hsucc]
    · simp [safeGet, safeGetL, hprev 0 (by omega), hsucc]
    · simp [safeGet, safeGetL, hprev 0 (by omega), hprev 1 (by omega), hsucc]

/-- Attempt oracle for the C3 witness: attempt 0 fails with status 500,
attempt 1 succeeds with status 200, attempt 2 raises. -/
def attEx : Nat → Attempt Nat := fun k =>
  if k = 0 then .resp 500 0 else if k = 1 then .resp 200 42 else .exn

/-- Witness for C3: after one failing attempt, the second attempt's payload
comes back. -/
theorem safe_get_retries_witness : safeGet attEx = some 42 :=
  (safe_get_retries attEx attEx 42 1 (fun _ _ => rfl)).2.2 (by omega) (by decide)
    (fun j hj => by interval_cases j; decide)

/-! ### main theorems -/

/-- A successfully assembled row copies the record's `id` field. -/
theorem assembleRow_id (gm : List (Int × String))
    (credits : Except Unit (String × String)) (m : Movie) (r : Row)
    (h : assembleRow gm credits m = .ok r) : r.id = m.id := by
  obtain ⟨tc, dir, g, _, _, hrow⟩ := assembleRow_eq gm credits m r h
  subst hrow
  rfl

/-- When the row-building loop completes, the row ids are exactly the movie
ids, in order. -/
theorem buildRowsT_ids (env : Env) (gm : List (Int × String)) :
    ∀ (ms : List Movie) (rows : List Row),
    (buildRowsT env gm ms).2 = .ok rows → rows.map Row.id = ms.map Movie.id := by
  intro ms
  induction ms with
  | nil =>
    intro rows h
    simp only [buildRowsT] at h
    cases h
    rfl
  | cons m ms ih =>
    intro rows h
    simp only [buildRowsT] at h
    cases ha : assembleRow gm (getMovieCredits (env.creditsFetch m.id)) m with
    | error e => rw [ha] at h; simp at h
    | ok r =>
      rw [ha] at h
      dsimp only at h
      cases hr : (buildRowsT env gm ms).2 with
      | error e => rw [hr] at h; simp [Except.map] at h
      | ok rows' =>
        rw [hr] at h
        simp only [Except.map] at h
        cases h
        simp only [List.map_cons]
        rw [ih rows' hr, assembleRow_id gm _ m r ha]

/-- C1: in every run of `main` that writes the output file, the rows written
have pairwise-distinct movie identifiers — a movie id appearing in several
listing endpoints or pages contributes exactly one row, because the
aggregation step skips any record whose id is already in the seen-set. -/
theorem output_ids_unique (apiKey : Option String) (env : Env)
    (reqs : List Request) (rows : List Row)
    (h : mainModel apiKey env = (reqs, some rows)) :
    (rows.map Row.id).Nodup := by
  unfold mainModel at h
  by_cases hk : badKey apiKey
  · rw [if_pos hk] at h
    simp at h
  · rw [if_neg hk] at h
    dsimp only at h
    split at h
    · simp at h
    · rename_i dm hd
      split at h
      · simp at h
      · rename_i rows' hb
        have h2 : rows' = rows := by
          have := congrArg Prod.snd h
          simpa using this
        subst h2
        rw [buildRowsT_ids env _ _ rows' hb]
        exact (dedupAux_nodup _ [] dm hd).2

/-- Duplicate-bearing listing records for the C1 witness. -/
def mW1 : Movie := ⟨some 1, some "A", none, none, none, some [], none⟩

/-- Second record for the C1 witness. -/
def mW2 : Movie := ⟨some 2, some "B", none, none, none, some [], none⟩

/-- C1 witness environment: the popular endpoint returns two records, and the
top-rated endpoint returns the first record again (same id). -/
def envEx : Env :=
  ⟨none,
   fun e p =>
     if e = "/movie/popular" ∧ p = 1 then some ⟨some [mW1, mW2]⟩
     else if e = "/movie/top_rated" ∧ p = 1 then some ⟨some [mW1]⟩
     else none,
   fun _ => none⟩

/-- Row assembled for `mW1`. -/
def rowW1 : Row := ⟨some 1, some "A", none, none, none, "", "", "", ""⟩

/-- Row assembled for `mW2`. -/
def rowW2 : Row := ⟨some 2, some "B", none, none, none, "", "", "", ""⟩

/-- Requests issued in the C1 witness run. -/
def reqsW : List Request :=
  [.genreList,
   .listing "/movie/popular" 1, .listing "/movie/popular" 2,
   .listing "/movie/top_rated" 1, .listing "/movie/top_rated" 2,
   .listing "/movie/upcoming" 1, .listing "/movie/now_playing" 1,
   .credits (some 1), .credits (some 2)]

/-- Witness for C1: in the concrete run the duplicated id 1 contributes one
row and the written ids are distinct. -/
theorem output_ids_unique_witness : ([rowW1, rowW2].map Row.id).Nodup :=
  output_ids_unique (some "k") envEx reqsW [rowW1, rowW2] (by rfl)

/-- C8: when the API key is absent (unset or empty, both falsy) or equals the
placeholder `"YOUR_API_KEY_HERE"`, `main` returns before constructing the
session: it issues no network request and does not create or modify the
output file. -/
theorem bad_key_no_network (apiKey : Option String) (env : Env)
    (h : badKey apiKey) : mainModel apiKey env = ([], none) := by
  unfold mainModel
  rw [if_pos h]

/-- Environment for the C8 witness (nothing would answer anyway). -/
def envNull : Env := ⟨none, fun _ _ => none, fun _ => none⟩

/-- Witness for C8: with the placeholder key, no request and no output. -/
theorem bad_key_no_network_witness :
    mainModel (some "YOUR_API_KEY_HERE") envNull = ([], none) :=
  bad_key_no_network (some "YOUR_API_KEY_HERE") envNull (Or.inr (Or.inr rfl))

end Crawl
